import Mathlib

/-!
Verification of the Business-Finder stage pipeline, response normalizer and
persistence layer. JavaScript values flowing through the normalizer are
modelled by the inductive type `Json`; JSON numbers are modelled as integers
(the repository's claims and concrete payloads only use integral scores and
counts). `JSON.parse` is modelled by `Json.parse`, `JSON.stringify` by
`Json.stringify`, and the JavaScript string primitives `indexOf`,
`lastIndexOf` and `substring` (with its clamp-and-swap semantics) by
`jsIndexOf`, `jsLastIndexOf` and `jsSubstring`.
-/

/-- A JavaScript/JSON value. Object fields are kept in insertion order with
unique keys, matching what `JSON.parse` produces (later duplicate keys
overwrite earlier values in place). `nan` is the JavaScript `NaN` produced by
failed numeric coercion; it never results from parsing. -/
inductive Json where
  | null : Json
  | nan : Json
  | bool : Bool → Json
  | num : Int → Json
  | str : String → Json
  | arr : List Json → Json
  | obj : List (String × Json) → Json

/-- Property read `fields.k`: first (and only) binding of `k`. -/
def getField (fs : List (String × Json)) (k : String) : Option Json :=
  match fs with
  | [] => none
  | (k', v) :: rest => if k' = k then some v else getField rest k

/-- Property write `fields.k = v`: replace in place if present, append if new
(JavaScript object assignment semantics). -/
def setField (fs : List (String × Json)) (k : String) (v : Json) : List (String × Json) :=
  match fs with
  | [] => [(k, v)]
  | (k', v') :: rest => if k' = k then (k, v) :: rest else (k', v') :: setField rest k v

/-- JavaScript truthiness of a value. -/
def Json.truthy : Json → Bool
  | .null => false
  | .nan => false
  | .bool b => b
  | .num n => n != 0
  | .str s => s != ""
  | .arr _ => true
  | .obj _ => true

/-- Whether a value is an array (`Array.isArray`). -/
def Json.isArr : Json → Bool
  | .arr _ => true
  | _ => false

-- ### JSON.stringify

/-- Escaping of one character inside a JSON string literal (the escapes
`JSON.stringify` emits for the characters that occur in this development). -/
def escapeChar (c : Char) : String :=
  if c = '"' then "\\\""
  else if c = '\\' then "\\\\"
  else if c = '\n' then "\\n"
  else if c = '\t' then "\\t"
  else if c = '\r' then "\\r"
  else String.singleton c

def escapeString (s : String) : String :=
  String.join (s.toList.map escapeChar)

def commaSep : List String → String
  | [] => ""
  | [x] => x
  | x :: xs => x ++ "," ++ commaSep xs

mutual

/-- Models `JSON.stringify` on a value (compact form, insertion-ordered keys). -/
def Json.stringify : Json → String
  | .null => "null"
  | .nan => "null"
  | .bool true => "true"
  | .bool false => "false"
  | .num n => toString n
  | .str s => "\"" ++ escapeString s ++ "\""
  | .arr xs => "[" ++ commaSep (stringifyList xs) ++ "]"
  | .obj fs => "\x7b" ++ commaSep (stringifyFields fs) ++ "\x7d"

def stringifyList : List Json → List String
  | [] => []
  | x :: xs => Json.stringify x :: stringifyList xs

def stringifyFields : List (String × Json) → List String
  | [] => []
  | (k, v) :: fs => ("\"" ++ escapeString k ++ "\":" ++ Json.stringify v) :: stringifyFields fs

end

-- ### JSON.parse (recursive-descent, fuel-bounded)

def isJsonWs (c : Char) : Bool :=
  c = ' ' || c = '\n' || c = '\t' || c = '\r'

def skipWs : List Char → List Char
  | [] => []
  | c :: cs => if isJsonWs c then skipWs cs else c :: cs

def hexDigitVal (c : Char) : Option Nat :=
  if '0' ≤ c ∧ c ≤ '9' then some (c.toNat - '0'.toNat)
  else if 'a' ≤ c ∧ c ≤ 'f' then some (c.toNat - 'a'.toNat + 10)
  else if 'A' ≤ c ∧ c ≤ 'F' then some (c.toNat - 'A'.toNat + 10)
  else none

/-- Body of a JSON string literal, after the opening quote. Returns the decoded
characters and the input after the closing quote. -/
def parseStringBody : List Char → Option (List Char × List Char)
  | [] => none
  | c :: cs =>
    if c = '"' then some ([], cs)
    else if c = '\\' then
      match cs with
      | [] => none
      | e :: cs' =>
        let dec : Option Char :=
          if e = '"' then some '"'
          else if e = '\\' then some '\\'
          else if e = '/' then some '/'
          else if e = 'n' then some '\n'
          else if e = 't' then some '\t'
          else if e = 'r' then some '\r'
          else if e = 'b' then some (Char.ofNat 8)
          else if e = 'f' then some (Char.ofNat 12)
          else none
        match dec with
        | some d =>
          match parseStringBody cs' with
          | some (rest, rem) => some (d :: rest, rem)
          | none => none
        | none =>
          if e = 'u' then
            match cs' with
            | h1 :: h2 :: h3 :: h4 :: cs'' =>
              match hexDigitVal h1, hexDigitVal h2, hexDigitVal h3, hexDigitVal h4 with
              | some a, some b, some c3, some d4 =>
                match parseStringBody cs'' with
                | some (rest, rem) =>
                  some (Char.ofNat (((a * 16 + b) * 16 + c3) * 16 + d4) :: rest, rem)
                | none => none
              | _, _, _, _ => none
            | _ => none
          else none
    else
      match parseStringBody cs with
      | some (rest, rem) => some (c :: rest, rem)
      | none => none

def isDigit (c : Char) : Bool := '0' ≤ c && c ≤ '9'

def takeDigits : List Char → (List Char × List Char)
  | [] => ([], [])
  | c :: cs =>
    if isDigit c then
      let (ds, rest) := takeDigits cs
      (c :: ds, rest)
    else ([], c :: cs)

def digitsToNat : List Char → Nat
  | [] => 0
  | ds => ds.foldl (fun acc c => acc * 10 + (c.toNat - '0'.toNat)) 0

/-- Integer literal per the JSON grammar (no leading zeros). Fractional and
exponent forms are outside the modelled integer number space and fail here. -/
def parseIntLit (cs : List Char) : Option (Int × List Char) :=
  let (neg, cs') : Bool × List Char :=
    match cs with
    | '-' :: rest => (true, rest)
    | _ => (false, cs)
  match takeDigits cs' with
  | ([], _) => none
  | (d :: ds, rest) =>
    if d = '0' ∧ ds ≠ [] then none
    else
      let n : Int := Int.ofNat (digitsToNat (d :: ds))
      some (if neg then -n else n, rest)

mutual

def parseVal (fuel : Nat) (cs : List Char) : Option (Json × List Char) :=
  match fuel with
  | 0 => none
  | fuel + 1 =>
    match skipWs cs with
    | [] => none
    | c :: cs' =>
      if c = 'n' then
        match cs' with
        | 'u' :: 'l' :: 'l' :: rest => some (.null, rest)
        | _ => none
      else if c = 't' then
        match cs' with
        | 'r' :: 'u' :: 'e' :: rest => some (.bool true, rest)
        | _ => none
      else if c = 'f' then
        match cs' with
        | 'a' :: 'l' :: 's' :: 'e' :: rest => some (.bool false, rest)
        | _ => none
      else if c = '"' then
        match parseStringBody cs' with
        | some (chars, rest) => some (.str (String.mk chars), rest)
        | none => none
      else if c = '[' then
        match skipWs cs' with
        | ']' :: rest => some (.arr [], rest)
        | cs'' =>
          match parseArrItems fuel cs'' with
          | some (xs, rest) => some (.arr xs, rest)
          | none => none
      else if c = '\x7b' then
        match skipWs cs' with
        | '\x7d' :: rest => some (.obj [], rest)
        | cs'' =>
          match parseObjItems fuel cs'' [] with
          | some (fs, rest) => some (.obj fs, rest)
          | none => none
      else
        match parseIntLit (c :: cs') with
        | some (n, rest) => some (.num n, rest)
        | none => none

def parseArrItems (fuel : Nat) (cs : List Char) : Option (List Json × List Char) :=
  match fuel with
  | 0 => none
  | fuel + 1 =>
    match parseVal fuel cs with
    | none => none
    | some (v, rest) =>
      match skipWs rest with
      | ',' :: rest' =>
        match parseArrItems fuel rest' with
        | some (vs, rem) => some (v :: vs, rem)
        | none => none
      | ']' :: rest' => some ([v], rest')
      | _ => none

def parseObjItems (fuel : Nat) (cs : List Char) (acc : List (String × Json)) :
    Option (List (String × Json) × List Char) :=
  match fuel with
  | 0 => none
  | fuel + 1 =>
    match skipWs cs with
    | '"' :: cs' =>
      match parseStringBody cs' with
      | none => none
      | some (kchars, rest) =>
        match skipWs rest with
        | ':' :: rest' =>
          match parseVal fuel rest' with
          | none => none
          | some (v, rest'') =>
            let acc' := setField acc (String.mk kchars) v
            match skipWs rest'' with
            | ',' :: rem => parseObjItems fuel rem acc'
            | '\x7d' :: rem => some (acc', rem)
            | _ => none
        | _ => none
    | _ => none

end

/-- Models `JSON.parse`: parse one JSON value and require only whitespace after it;
`none` models a thrown `SyntaxError`. -/
def Json.parse (s : String) : Option Json :=
  let cs := s.toList
  match parseVal (cs.length + 1) cs with
  | some (v, rest) => if skipWs rest = [] then some v else none
  | none => none

-- ### JavaScript string primitives

/-- Models `text.indexOf(c)`: index of the first occurrence, `-1` when absent. -/
def jsIndexOfAux (cs : List Char) (c : Char) (i : Nat) : Option Nat :=
  match cs with
  | [] => none
  | x :: xs => if x = c then some i else jsIndexOfAux xs c (i + 1)

def jsIndexOf (s : String) (c : Char) : Int :=
  match jsIndexOfAux s.toList c 0 with
  | some i => (i : Int)
  | none => -1

/-- Models `text.lastIndexOf(c)`: index of the last occurrence, `-1` when absent. -/
def jsLastIndexOf (s : String) (c : Char) : Int :=
  match jsIndexOfAux s.toList.reverse c 0 with
  | some i => ((s.toList.length - 1 - i : Nat) : Int)
  | none => -1

/-- Models `text.substring(a, b)`: both indices are clamped into `[0, length]` and
swapped when `a > b`, then the half-open slice is taken. -/
def jsSubstring (s : String) (a b : Int) : String :=
  let cs := s.toList
  let n := cs.length
  let clamp : Int → Nat := fun x => if x < 0 then 0 else min x.toNat n
  let i := clamp a
  let j := clamp b
  let lo := min i j
  let hi := max i j
  String.mk ((cs.drop lo).take (hi - lo))

-- ### src/services/gemini.ts — extractJson (lines 10-38)

/-- Models `extractJson` from `src/services/gemini.ts`: locate the first `\x7b` / last
`\x7d` and the first `[` / last `]`; if an object delimiter exists and opens
before any array delimiter, take `text.substring(startObj, endObj + 1)` when a
closing `\x7d` exists, else fall back to `"\x7b\x7d"`; otherwise the same for
the array delimiters; with no opening delimiter at all, `"\x7b\x7d"`. -/
def extractJson (text : String) : String :=
  let startObj := jsIndexOf text '\x7b'
  let endObj := jsLastIndexOf text '\x7d'
  let startArr := jsIndexOf text '['
  let endArr := jsLastIndexOf text ']'
  if startObj ≠ -1 ∧ (startArr = -1 ∨ startObj < startArr) then
    if endObj ≠ -1 then jsSubstring text startObj (endObj + 1) else "\x7b\x7d"
  else if startArr ≠ -1 then
    if endArr ≠ -1 then jsSubstring text startArr (endArr + 1) else "\x7b\x7d"
  else "\x7b\x7d"

def isTrimWs (c : Char) : Bool :=
  c = ' ' || c = '\n' || c = '\t' || c = '\r'

def dropLeadingWs : List Char → List Char
  | [] => []
  | c :: cs => if isTrimWs c then dropLeadingWs cs else c :: cs

/-- Models `text.trim()` (over the ASCII whitespace this development uses). -/
def jsTrim (s : String) : String :=
  String.mk ((dropLeadingWs (dropLeadingWs s.toList).reverse).reverse)

def replaceAllAux (fuel : Nat) (pat rep cs : List Char) : List Char :=
  match fuel with
  | 0 => cs
  | fuel + 1 =>
    match cs with
    | [] => []
    | c :: rest =>
      if pat.isPrefixOf cs then rep ++ replaceAllAux fuel pat rep (cs.drop pat.length)
      else c :: replaceAllAux fuel pat rep rest

/-- Models `text.replace(/pat/g, rep)` for a literal non-empty pattern: replace every
non-overlapping occurrence, scanning left to right. -/
def jsReplaceAll (s pat rep : String) : String :=
  if pat = "" then s
  else String.mk (replaceAllAux (s.toList.length + 1) pat.toList rep.toList s.toList)

/-- Models `cleanJson` from the second `gemini.ts` variant: strip all ```` ```json ````
and ```` ``` ```` markers, then trim. -/
def cleanJson (text : String) : String :=
  jsTrim (jsReplaceAll (jsReplaceAll text "```json" "") "```" "")

/-- Models `Math.round(n / 10)` for an integral `n`: JavaScript rounds half toward
positive infinity, so this is `⌊(n + 5) / 10⌋`. -/
def jsRoundDiv10 (n : Int) : Int :=
  Int.fdiv (n + 5) 10

/-- A thrown JavaScript exception (reaching a `catch` handler or rejecting
the promise): a `TypeError`, a JSON `SyntaxError`, or a thrown supabase error
object. -/
inductive JsError where
  | typeError : JsError
  | syntaxError : JsError
  | dbError : JsError
  deriving DecidableEq, Repr

-- ### src/services/gemini.ts — fetchRegions / findBusinessesWithGemini

/-- Models `fs.k1 || fs.k2 || ... || fallback`: the first truthy field among the
listed keys, else the fallback. -/
def firstTruthyField (fs : List (String × Json)) (ks : List String) (fallback : Json) : Json :=
  match ks with
  | [] => fallback
  | k :: ks' =>
    match getField fs k with
    | some v => if v.truthy then v else firstTruthyField fs ks' fallback
    | none => firstTruthyField fs ks' fallback

/-- The element sanitizer inside `fetchRegions`:
`typeof item === 'string' ? item : item.name || item.region || item.state ||
item.message || JSON.stringify(item)`. Reading a property of `null` throws a
`TypeError` (caught by the surrounding handler); property reads on other
primitives yield `undefined` and fall through to `JSON.stringify`. -/
def regionItemToString : Json → Except JsError Json
  | .str s => .ok (.str s)
  | .null => .error .typeError
  | .obj fs =>
    .ok (firstTruthyField fs ["name", "region", "state", "message"]
      (.str (Json.stringify (.obj fs))))
  | j => .ok (.str (Json.stringify j))

/-- The `try` body of `fetchRegions` (first variant, lines 53-69) applied to
the response text: extract, parse, and — when the result is an array — map the
element sanitizer over it; a non-array parse yields `[]`. -/
def fetchRegionsBody (respText : String) : Except JsError Json :=
  match Json.parse (extractJson respText) with
  | none => .error .syntaxError
  | some (.arr items) =>
    match items.mapM regionItemToString with
    | .ok xs => .ok (.arr xs)
    | .error e => .error e
  | some _ => .ok (.arr [])

/-- Models `fetchRegions` normalization: any error thrown in the body is caught and
degraded to the empty array. -/
def fetchRegions (respText : String) : Json :=
  match fetchRegionsBody respText with
  | .ok v => v
  | .error _ => .arr []

/-- Models `findBusinessesWithGemini` normalization (first variant, lines 99-113):
`JSON.parse(extractJson(text))` returned unchanged; only a thrown parse error
degrades to the empty array. -/
def findBusinessesWithGemini (respText : String) : Json :=
  match Json.parse (extractJson respText) with
  | none => .arr []
  | some v => v

-- ### src/services/gemini.ts — enrichBusinessData & the handleEnrich merge

/-- Models `enrichBusinessData` normalization (first variant, lines 142-155): parse
the extracted span and return `\x7b enriched_data: parsed.enriched_data \x7d`
when that field is truthy, else `\x7b\x7d`; parse failures and the `TypeError`
from reading a property of `null` are caught and yield `\x7b\x7d`. -/
def enrichBusinessData (respText : String) : List (String × Json) :=
  match Json.parse (extractJson respText) with
  | none => []
  | some (.obj fs) =>
    match getField fs "enriched_data" with
    | some v => if v.truthy then [("enriched_data", v)] else []
    | none => []
  | some _ => []

/-- JavaScript object spread `\x7b ...old, ...new \x7d`: every key of `new`
overwrites (or appends to) `old`, regardless of the value it carries. -/
def jsSpread (old new : List (String × Json)) : List (String × Json) :=
  new.foldl (fun acc kv => setField acc kv.1 kv.2) old

/-- The enriched-data merge inside `handleEnrich`
(`src/components/BusinessProcessor.tsx`, line 243):
`\x7b ...prev.enriched_data, ...extra.enriched_data \x7d`, where an absent
record spreads as the empty object. Stated for object-shaped enrichment
results, the shape `enrichBusinessData`'s schema prescribes. -/
def handleEnrichMerge (prevEnriched extraEnriched : List (String × Json)) :
    List (String × Json) :=
  jsSpread prevEnriched extraEnriched

/-- A field value counts as populated (non-empty) in the sense of the
specification's additivity claim: present and not `null`, the empty array or
the empty string. -/
def fieldNonEmpty : Option Json → Bool
  | none => false
  | some .null => false
  | some (.arr []) => false
  | some (.str "") => false
  | some _ => true

/-- The merge rule exactly as the specification words it: for any field, the
merged field equals the new value if the new value is non-empty, else the old
value. -/
def MergeAdditive (old new merged : List (String × Json)) : Prop :=
  ∀ k, getField merged k =
    if fieldNonEmpty (getField new k) then getField new k else getField old k

-- ### src/services/gemini.ts — reviewWebsiteContent normalization

def truthyOpt : Option Json → Bool
  | some v => v.truthy
  | none => false

/-- Models `String(v)` for primitive values (the branch the improvement sanitizer
reaches for non-string, non-object items). -/
def jsToStringPrim : Json → String
  | .num n => toString n
  | .bool true => "true"
  | .bool false => "false"
  | .nan => "NaN"
  | .null => "null"
  | v => Json.stringify v

/-- Models `ToNumber` coercion restricted to the modelled integral number space:
numbers stay, booleans and `null` coerce, integral strings parse (empty or
blank strings coerce to `0`); everything else — non-integral text, arrays,
objects — is modelled as `NaN` (`none`). -/
def jsToNumber : Json → Option Int
  | .num n => some n
  | .bool b => some (if b then 1 else 0)
  | .null => some 0
  | .str s =>
    let t := jsTrim s
    if t = "" then some 0
    else
      match parseIntLit t.toList with
      | some (n, []) => some n
      | _ => none
  | _ => none

/-- Models `if (!fs.k) fs.k = []` — replace a falsy or absent field by the empty
array. -/
def ensureArrField (fs : List (String × Json)) (k : String) : List (String × Json) :=
  if truthyOpt (getField fs k) then fs else setField fs k (.arr [])

/-- Score normalization in `reviewWebsiteContent` (first variant, lines
469-471): `if (parsed.visual_design_score && !parsed.design_score)
parsed.design_score = Math.round(parsed.visual_design_score / 10)`. -/
def vdsStep (fs : List (String × Json)) : List (String × Json) :=
  if truthyOpt (getField fs "visual_design_score") ∧
      ¬ truthyOpt (getField fs "design_score") then
    setField fs "design_score"
      (match jsToNumber ((getField fs "visual_design_score").getD .null) with
       | some n => .num (jsRoundDiv10 n)
       | none => .nan)
  else fs

/-- Models `value.length === 0` as the review sanitizer observes it on the values
that can reach it (arrays, strings, objects carrying a `length` field; other
values read `undefined`, which is not `0`). -/
def jsLengthIsZero : Json → Bool
  | .arr xs => xs.isEmpty
  | .str s => s == ""
  | .obj fs =>
    match getField fs "length" with
    | some (.num 0) => true
    | _ => false
  | _ => false

/-- Models `if (parsed.recommendations && parsed.improvements.length === 0)
parsed.improvements = parsed.recommendations.slice(0, 3)`; calling `.slice`
on a value that has none (numbers, booleans, plain objects) throws a
`TypeError`. -/
def recsStep (fs : List (String × Json)) : Except JsError (List (String × Json)) :=
  match getField fs "recommendations" with
  | some recs =>
    if recs.truthy ∧ jsLengthIsZero ((getField fs "improvements").getD .null) then
      match recs with
      | .arr xs => .ok (setField fs "improvements" (.arr (xs.take 3)))
      | .str s => .ok (setField fs "improvements" (.str (String.mk (s.toList.take 3))))
      | _ => .error .typeError
    else .ok fs
  | none => .ok fs

/-- Per-item sanitizer for `improvements` (first variant, lines 481-487):
strings pass, objects yield `item.point || item.improvement || item.text ||
JSON.stringify(item)` (arrays, having none of the keys, stringify), `null` —
`typeof null === 'object'` — throws on the property read, and remaining
primitives go through `String(item)`. -/
def improvementItemMap : Json → Except JsError Json
  | .str s => .ok (.str s)
  | .null => .error .typeError
  | .obj fs =>
    .ok (firstTruthyField fs ["point", "improvement", "text"]
      (.str (Json.stringify (.obj fs))))
  | .arr xs => .ok (.str (Json.stringify (.arr xs)))
  | v => .ok (.str (jsToStringPrim v))

def box2dZero : Json :=
  .arr [.num 0, .num 0, .num 0, .num 0]

/-- Per-item sanitizer for `critique` (first variant, lines 492-504): a string
becomes a fresh point record; on an object whose `point` is not a string, the
code assigns `item.point = item.issue || item.description ||
JSON.stringify(item)` (the stringify of the pre-assignment item); `null`
throws on the `item.point` read; other primitives become the fixed
"Unidentified Issue" record. For an array item the source attaches the `point`
property to the array itself; that attachment is dropped here (no claim
concerns array-valued critique entries). -/
def critiqueItemMap : Json → Except JsError Json
  | .str s =>
    .ok (.obj [("point", .str s), ("box_2d", box2dZero), ("related_code_snippet", .str "")])
  | .null => .error .typeError
  | .obj fs =>
    match getField fs "point" with
    | some (.str _) => .ok (.obj fs)
    | _ =>
      .ok (.obj (setField fs "point"
        (firstTruthyField fs ["issue", "description"] (.str (Json.stringify (.obj fs))))))
  | .arr xs => .ok (.arr xs)
  | _ => .ok (.obj [("point", .str "Unidentified Issue"), ("box_2d", box2dZero)])

/-- Per-item mapper for the `issues`-to-`critique` fallback (first variant,
lines 509-512). -/
def issueItemMap : Json → Except JsError Json
  | .str s =>
    .ok (.obj [("point", .str s), ("box_2d", box2dZero), ("related_code_snippet", .str "")])
  | .null => .error .typeError
  | .obj fs =>
    .ok (.obj [("point", firstTruthyField fs ["issue", "description"]
        (.str (Json.stringify (.obj fs)))),
      ("box_2d", box2dZero), ("related_code_snippet", .str "")])
  | v =>
    .ok (.obj [("point", .str (Json.stringify v)),
      ("box_2d", box2dZero), ("related_code_snippet", .str "")])

/-- Models `if (Array.isArray(fs.k)) fs.k = fs.k.map f` with a fallible per-item
function. -/
def mapArrField (fs : List (String × Json)) (k : String) (f : Json → Except JsError Json) :
    Except JsError (List (String × Json)) :=
  match getField fs k with
  | some (.arr xs) =>
    match xs.mapM f with
    | .ok ys => .ok (setField fs k (.arr ys))
    | .error e => .error e
  | _ => .ok fs

/-- Models `if (parsed.issues && parsed.critique.length === 0 &&
Array.isArray(parsed.issues)) parsed.critique = parsed.issues.map(...)`. -/
def issuesStep (fs : List (String × Json)) : Except JsError (List (String × Json)) :=
  match getField fs "issues" with
  | some issues =>
    if issues.truthy ∧ jsLengthIsZero ((getField fs "critique").getD .null) then
      match issues with
      | .arr xs =>
        match xs.mapM issueItemMap with
        | .ok ys => .ok (setField fs "critique" (.arr ys))
        | .error e => .error e
      | _ => .ok fs
    else .ok fs
  | none => .ok fs

/-- The whole sanitization pass of `reviewWebsiteContent` (first variant,
lines 469-514) on an object-shaped parse result; an `error` is a thrown
`TypeError` reaching the surrounding `catch`. -/
def reviewSanitize (fs0 : List (String × Json)) : Except JsError (List (String × Json)) :=
  let fs1 := vdsStep fs0
  let fs2 := ensureArrField fs1 "critique"
  let fs3 := ensureArrField fs2 "improvements"
  match recsStep fs3 with
  | .error e => .error e
  | .ok fs4 =>
    match mapArrField fs4 "improvements" improvementItemMap with
    | .error e => .error e
    | .ok fs5 =>
      match mapArrField fs5 "critique" critiqueItemMap with
      | .error e => .error e
      | .ok fs6 => issuesStep fs6

/-- The fields of the fixed fallback review both variants return from their
`catch` handler (first variant lines 520-526, second variant lines 952-958). -/
def reviewFallbackFields : List (String × Json) :=
  [("design_score", .num 5), ("conversion_score", .num 5),
    ("critique", .arr [.obj [("point",
      .str "AI Review Service encountered an parsing error. Manual review recommended."),
      ("box_2d", box2dZero)]]),
    ("improvements", .arr [.str "Check manual alignment", .str "Verify mobile responsiveness"]),
    ("is_approved", .bool false)]

/-- The fixed fallback review as a value. -/
def reviewFallback : Json :=
  .obj reviewFallbackFields

/-- Response normalization of `reviewWebsiteContent`, first variant (lines
464-527): extract, parse, sanitize; a parse failure or a `TypeError` thrown
during sanitization (including the strict-mode write to a primitive parse
result, and the read on `null`) yields the fallback. An array parse result
passes through with its two attached empty-list properties dropped (no claim
concerns array responses). -/
def reviewNormalize (respText : String) : Json :=
  match Json.parse (extractJson respText) with
  | none => reviewFallback
  | some (.obj fs) =>
    match reviewSanitize fs with
    | .ok fs' => .obj fs'
    | .error _ => reviewFallback
  | some (.arr xs) => .arr xs
  | some _ => reviewFallback

/-- Response normalization of `reviewWebsiteContent`, second variant (lines
940-948): `cleanJson`, parse, and only the two empty-list defaults. -/
def reviewNormalize2 (respText : String) : Json :=
  match Json.parse (cleanJson respText) with
  | none => reviewFallback
  | some (.obj fs) => .obj (ensureArrField (ensureArrField fs "critique") "improvements")
  | some (.arr xs) => .arr xs
  | some _ => reviewFallback

-- ### src/services/gemini.ts — generateOutreachMaterials normalization

/-- Coercion of an object-or-string free-text field (`whatsapp`,
`call_script`): when the field is truthy and `typeof` it is `'object'`
(objects and arrays; `null` is excluded by the truthiness check), replace it
by the first truthy of the listed keys, else `JSON.stringify` of the value.
First variant lines 572-577 use keys `message`, `text`; second variant lines
987-992 add `content`. -/
def coerceMsgField (fs : List (String × Json)) (k : String) (ks : List String) :
    List (String × Json) :=
  match getField fs k with
  | some (.obj w) =>
    setField fs k (firstTruthyField w ks (.str (Json.stringify (.obj w))))
  | some (.arr xs) => setField fs k (.str (Json.stringify (.arr xs)))
  | _ => fs

/-- The error package `generateOutreachMaterials` (first variant, lines
585-591) returns from its `catch` handler. -/
def outreachErrorPackage : Json :=
  .obj [("cold_email", .obj [("subject", .str "Error"), ("body", .str "Could not generate.")]),
    ("whatsapp", .str "Error generating content."),
    ("call_script", .str "Error generating content."),
    ("follow_ups", .arr []), ("objections", .arr [])]

/-- Response normalization of `generateOutreachMaterials`, first variant
(lines 567-592): extract, parse, coerce `whatsapp` and `call_script`, default
`follow_ups` and `objections` to empty lists. Parse failure, the read on a
`null` result, or the strict-mode write to a primitive result yields the
error package; an array result passes through with its attached defaults
dropped (no claim concerns array responses). -/
def generateOutreachMaterials (respText : String) : Json :=
  match Json.parse (extractJson respText) with
  | none => outreachErrorPackage
  | some (.obj fs) =>
    let fs1 := coerceMsgField fs "whatsapp" ["message", "text"]
    let fs2 := coerceMsgField fs1 "call_script" ["message", "text"]
    let fs3 := ensureArrField fs2 "follow_ups"
    let fs4 := ensureArrField fs3 "objections"
    .obj fs4
  | some (.arr xs) => .arr xs
  | some _ => outreachErrorPackage

/-- The error package of the second variant (lines 997-1001): no `follow_ups`
or `objections` keys. -/
def outreachErrorPackage2 : Json :=
  .obj [("cold_email", .obj [("subject", .str "Error"), ("body", .str "Could not generate.")]),
    ("whatsapp", .str "Error generating content."),
    ("call_script", .str "Error generating content.")]

/-- Response normalization of `generateOutreachMaterials`, second variant
(lines 983-1002): `cleanJson`, parse, and the two coercions with the extra
`content` key; no list defaults. -/
def generateOutreachMaterials2 (respText : String) : Json :=
  match Json.parse (cleanJson respText) with
  | none => outreachErrorPackage2
  | some (.obj fs) =>
    let fs1 := coerceMsgField fs "whatsapp" ["message", "text", "content"]
    let fs2 := coerceMsgField fs1 "call_script" ["message", "text", "content"]
    .obj fs2
  | some (.arr xs) => .arr xs
  | some _ => outreachErrorPackage2

-- ### src/types.ts — pipeline data model (the fields the verified handlers read)

inductive ProcessingStage where
  | PROMPT | BUILD | REVIEW | OUTREACH | SUMMARY
  deriving DecidableEq, Repr

/-- Models `Business` from `src/types.ts`, with the loosely-typed `enriched_data`
sub-record kept as a JavaScript object. Numeric attributes are carried as
`Json` values (no claim computes with them). -/
structure Business where
  id : String
  name : String
  address : String
  rating : Json
  review_count : Json
  website_status : String
  description : Option String
  phone : Option String
  enriched_data : Option (List (String × Json))

structure ColdEmail where
  subject : String
  body : String

/-- Models `OutreachPackage` as the processor's typed state holds it (the fields the
verified handlers read). -/
structure OutreachPackageRec where
  cold_email : ColdEmail
  whatsapp : String
  call_script : String

/-- The `BusinessProcessor` component state read and written by the verified
handlers. `screenshot` is `string | null`; `prompt`, `websiteUrl` and
`generatedCode` are strings whose empty value is falsy. -/
structure ProcState where
  stage : ProcessingStage
  prompt : String
  websiteUrl : String
  screenshot : Option String
  generatedCode : String
  review : Option Json
  outreach : Option OutreachPackageRec
  business : Option Business

/-- Falsiness of a `string | null` state value: `null` or the empty string. -/
def strNullFalsy : Option String → Bool
  | none => true
  | some s => s = ""

-- ### src/components/BusinessProcessor.tsx — handlers

/-- Models `calculateProjectScore` (lines 206-214): 20 points for each of
`business?.enriched_data`, `prompt`, `generatedCode || websiteUrl`, `review`,
`outreach` that is truthy. -/
def calculateProjectScore (s : ProcState) : Nat :=
  let score := 0
  let score := if (s.business.bind fun b => b.enriched_data).isSome then score + 20 else score
  let score := if s.prompt ≠ "" then score + 20 else score
  let score := if s.generatedCode ≠ "" ∨ s.websiteUrl ≠ "" then score + 20 else score
  let score := if s.review.isSome then score + 20 else score
  let score := if s.outreach.isSome then score + 20 else score
  score

/-- Models `handleFinalize` (lines 216-224): compute the score, then move to the
`SUMMARY` stage. Returns the new state and the project score it set. -/
def handleFinalize (s : ProcState) : ProcState × Nat :=
  ({ s with stage := .SUMMARY }, calculateProjectScore s)

/-- Models `handleReview` (lines 462-494) as a transition on the component state,
parameterized by the outcome of the Gateway critique call. The two synchronous
guards return before any state change; past them the handler sets the stage to
`REVIEW` *before* awaiting the Gateway, stores the review on success, and on a
thrown call only shows the blocking alert — the stage keeps the value `REVIEW`
it was optimistically given. The persistence call that follows a success
cannot alter the component state, so its outcome is not a parameter.
`screenshotIsHttp` is the second guard's `screenshot?.startsWith("http")`. -/
def screenshotIsHttp (s : ProcState) : Bool :=
  match s.screenshot with
  | some sc => sc.startsWith "http"
  | none => false

def handleReview (s : ProcState) (gateway : Except JsError Json) : ProcState :=
  if (strNullFalsy s.screenshot ∧ s.generatedCode = "") ∨ s.websiteUrl = "" then s
  else if screenshotIsHttp s ∧ s.generatedCode = "" then s
  else
    let s1 := { s with stage := .REVIEW }
    match gateway with
    | .ok r => { s1 with review := some r }
    | .error _ => s1

/-- Models `handleGenerateOutreach` (lines 496-511): with a business selected, set
the stage to `OUTREACH` *before* awaiting the Gateway; store the package on
success; on a thrown call only the alert fires and the optimistically set
stage remains. -/
def handleGenerateOutreach (s : ProcState) (gateway : Except JsError OutreachPackageRec) :
    ProcState :=
  match s.business with
  | none => s
  | some _ =>
    let s1 := { s with stage := .OUTREACH }
    match gateway with
    | .ok r => { s1 with outreach := some r }
    | .error _ => s1

-- ### src/services/email.ts and the send-email action

mutual

/-- JavaScript string coercion (`String(v)` / template-literal interpolation)
of a value. -/
def jsTemplateString : Json → String
  | .str s => s
  | .num n => toString n
  | .bool true => "true"
  | .bool false => "false"
  | .null => "null"
  | .nan => "NaN"
  | .arr xs => commaSep (jsTemplateStringList xs)
  | .obj _ => "[object Object]"

def jsTemplateStringList : List Json → List String
  | [] => []
  | x :: xs => jsTemplateString x :: jsTemplateStringList xs

end

/-- Models `sendEmail` from `src/services/email.ts` (lines 2-11): log the recipient
and subject, wait, and resolve `true`. The returned trace is the console
output — the function's only effect; no network dispatch exists in the
source. (The source names the first parameter `to`, a reserved word here.) -/
def sendEmail (recipient subject body : String) : List String × Bool :=
  (["[Email Service] Sending to: " ++ recipient, "Subject: " ++ subject], true)

/-- Models `getContactEmail` (lines 573-578): the first entry of
`enriched_data.emails` when that field is truthy with a positive `length`
(a string field yields its first character), else the empty string. Exotic
non-array, non-string shapes fail the `length > 0` check. -/
def getContactEmail (business : Option Business) : Json :=
  match business with
  | some b =>
    match b.enriched_data with
    | some ed =>
      match getField ed "emails" with
      | some (.arr (e :: _)) => e
      | some (.str s) =>
        match s.toList with
        | c :: _ => .str (String.singleton c)
        | [] => .str ""
      | _ => .str ""
    | none => .str ""
  | none => .str ""

/-- A user-facing notice: a success toast or a blocking alert. -/
inductive Notice where
  | toast : String → Notice
  | alert : String → Notice
  deriving DecidableEq, Repr

/-- Models `handleSendEmail` (lines 588-610): with an outreach package present, send
`cold_email` to the found contact address — substituting `test@example.com`
for a falsy one — and report the outcome. The string coercion the source
performs inside `sendEmail`'s log template is applied at the call boundary. -/
def handleSendEmail (business : Option Business) (outreach : Option OutreachPackageRec) :
    Option Notice :=
  match outreach with
  | none => none
  | some o =>
    let email := getContactEmail business
    let toAddr := if email.truthy then jsTemplateString email else "test@example.com"
    let r := sendEmail toAddr o.cold_email.subject o.cold_email.body
    if r.2 then some (.toast "Email Sent Successfully")
    else some (.alert "Failed to send email.")

-- ### src/unnamed/part_000 — persistence layer (degraded-mode variant)

/-- Outcome of one supabase query: the client resolves to a record holding
`data` and `error` rather than throwing. -/
structure SupaResult where
  data : Option Json
  error : Option Json

/-- External behaviour of a configured remote store, one entry per query
shape the persistence layer issues — a boundary oracle; the network transport
is out of scope.
`selectIdByBusinessId table businessId` models
`.from(table).select('id').eq('business_id', businessId).single()`, returning
the id of the existing row when one is found. -/
structure RemoteClient where
  insertSelectSingle : String → List (String × Json) → SupaResult
  insertManySelect : String → List (List (String × Json)) → SupaResult
  updateById : String → List (String × Json) → String → SupaResult
  selectIdByBusinessId : String → String → Option String
  insertOnly : String → List (String × Json) → SupaResult

/-- The module binding `export const supabase = isSupabaseEnabled ?
createClient(...) : null as any`: `none` is the disabled (null) client. -/
abbrev SupabaseHandle := Option RemoteClient

/-- Models `createSessionInDb` (lines 20-45): with the remote tier disabled, return
the synthetic session `\x7b id: local-${Date.now()}, ...sessionData \x7d`
without any remote call; otherwise insert a row built from the session fields
plus `status: 'active'` and throw when the client reports an error. An
`undefined` field of the partial session data is carried as `null`. -/
def createSessionInDb (supabase : SupabaseHandle) (nowMs : Nat)
    (sessionData : List (String × Json)) : Except JsError Json :=
  match supabase with
  | none => .ok (.obj (jsSpread [("id", .str ("local-" ++ toString nowMs))] sessionData))
  | some c =>
    let keys := ["category", "location", "rating_min", "rating_max", "website_filter",
      "review_count_min", "include_media"]
    let row := (keys.map fun k => (k, (getField sessionData k).getD .null)) ++
      [("status", .str "active")]
    let r := c.insertSelectSingle "sessions" row
    if truthyOpt r.error then .error .dbError
    else .ok (r.data.getD .null)

/-- The row `saveBusinessesToDb` builds for one business (an `undefined`
optional field is carried as `null`). -/
def businessRow (sessionId : String) (b : Business) : List (String × Json) :=
  let descr : Json := match b.description with
    | some s => .str s
    | none => .null
  [("session_id", .str sessionId), ("name", .str b.name), ("address", .str b.address),
    ("category", descr), ("rating", b.rating), ("review_count", b.review_count),
    ("website_status", .str b.website_status), ("description", descr),
    ("confidence_score", .num 80), ("is_verified", .bool false)]

/-- Models `saveBusinessesToDb` (lines 49-73): with the remote tier disabled, return
the mapped rows with injected local ids `local-biz-${Date.now()}-${i}`;
otherwise insert them and throw on a reported error. -/
def saveBusinessesToDb (supabase : SupabaseHandle) (nowMs : Nat)
    (sessionId : String) (businesses : List Business) : Except JsError Json :=
  let rows := businesses.map (businessRow sessionId)
  match supabase with
  | none =>
    .ok (.arr (rows.mapIdx fun i r =>
      .obj (jsSpread r [("id", .str ("local-biz-" ++ toString nowMs ++ "-" ++ toString i))])))
  | some c =>
    let r := c.insertManySelect "businesses" rows
    if truthyOpt r.error then .error .dbError
    else .ok (r.data.getD .null)

/-- Models `updateBusinessInDb` (lines 75-88): a no-op warning when disabled; when
enabled, the reported error is only logged, never thrown. -/
def updateBusinessInDb (supabase : SupabaseHandle) (businessId : String)
    (updates : List (String × Json)) : Except JsError Unit :=
  match supabase with
  | none => .ok ()
  | some c =>
    let _ := c.updateById "businesses" updates businessId
    .ok ()

/-- Models `savePromptToDb` (lines 92-106): this function has no disabled-mode guard;
with the client `null`, the very first `supabase.from('prompts')` dereference
throws a `TypeError`. When enabled: check for an existing row by business id,
then update it or insert a fresh one, returning the raw response without
inspecting its error. -/
def savePromptToDb (supabase : SupabaseHandle) (businessId promptContent : String) :
    Except JsError SupaResult :=
  match supabase with
  | none => .error .typeError
  | some c =>
    let payload := [("generated_prompt", .str promptContent), ("is_approved", .bool true)]
    match c.selectIdByBusinessId "prompts" businessId with
    | some rid => .ok (c.updateById "prompts" payload rid)
    | none => .ok (c.insertOnly "prompts" (("business_id", .str businessId) :: payload))

/-- Models `saveWebsiteToDb` (lines 110-126): same unguarded check-then-upsert shape
as `savePromptToDb`; throws a `TypeError` on the `null` client. -/
def saveWebsiteToDb (supabase : SupabaseHandle) (businessId url sourceCode screenshot : String) :
    Except JsError SupaResult :=
  match supabase with
  | none => .error .typeError
  | some c =>
    let payload := [("status", .str "DRAFT"), ("url", .str url),
      ("source_code", .str sourceCode),
      ("screenshots", if screenshot ≠ "" then .arr [.str screenshot] else .arr [])]
    match c.selectIdByBusinessId "websites" businessId with
    | some rid => .ok (c.updateById "websites" payload rid)
    | none => .ok (c.insertOnly "websites" (("business_id", .str businessId) :: payload))

/-- Models `saveReviewToDb` (lines 130-147): unguarded check-then-upsert on the
`reviews` table; throws a `TypeError` on the `null` client. The review value
is the loosely-typed object the normalizer produced. -/
def saveReviewToDb (supabase : SupabaseHandle) (businessId : String)
    (review : List (String × Json)) : Except JsError SupaResult :=
  match supabase with
  | none => .error .typeError
  | some c =>
    let payload := [("design_score", (getField review "design_score").getD .null),
      ("conversion_score", (getField review "conversion_score").getD .null),
      ("issues", (getField review "critique").getD .null),
      ("suggestions", (getField review "improvements").getD .null),
      ("status", .str (if truthyOpt (getField review "is_approved")
        then "APPROVED" else "NEEDS_FIX"))]
    match c.selectIdByBusinessId "reviews" businessId with
    | some rid => .ok (c.updateById "reviews" payload rid)
    | none => .ok (c.insertOnly "reviews" (("business_id", .str businessId) :: payload))

/-- Models `saveOutreachToDb` (lines 151-166): unguarded check-then-upsert on the
`outreach` table; throws a `TypeError` on the `null` client. -/
def saveOutreachToDb (supabase : SupabaseHandle) (businessId : String)
    (outreach : OutreachPackageRec) : Except JsError SupaResult :=
  match supabase with
  | none => .error .typeError
  | some c =>
    let payload := [("cold_email_short",
        .str (jsSubstring outreach.cold_email.body 0 100 ++ "...")),
      ("cold_email_full", .str outreach.cold_email.body),
      ("subject_lines", .arr [.str outreach.cold_email.subject]),
      ("whatsapp_pitch", .str outreach.whatsapp),
      ("call_script", .str outreach.call_script),
      ("status", .str "GENERATED")]
    match c.selectIdByBusinessId "outreach" businessId with
    | some rid => .ok (c.updateById "outreach" payload rid)
    | none => .ok (c.insertOnly "outreach" (("business_id", .str businessId) :: payload))

/-- Property read on an arbitrary value: `v.k` yields a field only on
objects. -/
def Json.getProp : Json → String → Option Json
  | .obj fs, k => getField fs k
  | _, _ => none

-- ### Helper lemmas on field access

theorem getField_setField (fs : List (String × Json)) (kw k : String) (v : Json) :
    getField (setField fs kw v) k = if kw = k then some v else getField fs k := by
  induction fs with
  | nil => by_cases h : kw = k <;> simp [setField, getField, h]
  | cons kv rest ih =>
    obtain ⟨k0, v0⟩ := kv
    by_cases h0 : k0 = kw
    · subst h0
      by_cases h1 : k0 = k <;> simp [setField, getField, h1]
    · by_cases h1 : k0 = k
      · subst h1
        have hkw : ¬ kw = k0 := fun hh => h0 hh.symm
        simp [setField, getField, h0, hkw]
      · simp [setField, getField, h0, h1, ih]

theorem getField_eq_none (fs : List (String × Json)) (k : String)
    (h : k ∉ fs.map Prod.fst) : getField fs k = none := by
  induction fs with
  | nil => rfl
  | cons kv rest ih =>
    obtain ⟨k0, v0⟩ := kv
    simp only [List.map_cons, List.mem_cons, not_or] at h
    have h1 : ¬ k0 = k := fun hh => h.1 hh.symm
    simp [getField, h1, ih h.2]

theorem getField_jsSpread (old new : List (String × Json)) (k : String)
    (hnd : (new.map Prod.fst).Nodup) :
    getField (jsSpread old new) k =
      match getField new k with
      | some v => some v
      | none => getField old k := by
  induction new generalizing old with
  | nil => simp [jsSpread, getField]
  | cons kv rest ih =>
    obtain ⟨k0, v0⟩ := kv
    simp only [List.map_cons, List.nodup_cons] at hnd
    obtain ⟨hk0, hnd'⟩ := hnd
    have hstep : jsSpread old ((k0, v0) :: rest) = jsSpread (setField old k0 v0) rest := rfl
    rw [hstep, ih (setField old k0 v0) hnd']
    by_cases hk : k0 = k
    · subst hk
      have hnone : getField rest k0 = none := getField_eq_none rest k0 (by simpa using hk0)
      simp [getField, hnone, getField_setField]
    · rcases hrk : getField rest k with _ | v
      · simp [getField, hk, hrk, getField_setField]
      · simp [getField, hk, hrk]

theorem getField_ensureArrField (fs : List (String × Json)) (kw k : String) (h : kw ≠ k) :
    getField (ensureArrField fs kw) k = getField fs k := by
  by_cases ht : truthyOpt (getField fs kw) <;>
    simp [ensureArrField, ht, getField_setField, h]

/-- Every sanitization step either leaves the object alone or writes exactly
one key; reads at any other key are unaffected. -/
theorem getField_of_shape {fs fs' : List (String × Json)} {kw k : String}
    (hsh : fs' = fs ∨ ∃ v, fs' = setField fs kw v) (hk : kw ≠ k) :
    getField fs' k = getField fs k := by
  rcases hsh with rfl | ⟨v, rfl⟩
  · rfl
  · simp [getField_setField, hk]

theorem recsStep_shape {fs fs' : List (String × Json)} (h : recsStep fs = .ok fs') :
    fs' = fs ∨ ∃ v, fs' = setField fs "improvements" v := by
  unfold recsStep at h
  split at h
  · split at h
    · split at h
      · injection h with h; exact Or.inr ⟨_, h.symm⟩
      · injection h with h; exact Or.inr ⟨_, h.symm⟩
      · exact Except.noConfusion h
    · injection h with h; exact Or.inl h.symm
  · injection h with h; exact Or.inl h.symm

theorem mapArrField_shape {fs fs' : List (String × Json)} {kw : String}
    {f : Json → Except JsError Json} (h : mapArrField fs kw f = .ok fs') :
    fs' = fs ∨ ∃ v, fs' = setField fs kw v := by
  unfold mapArrField at h
  split at h
  · split at h
    · injection h with h; exact Or.inr ⟨_, h.symm⟩
    · exact Except.noConfusion h
  · injection h with h; exact Or.inl h.symm

theorem issuesStep_shape {fs fs' : List (String × Json)} (h : issuesStep fs = .ok fs') :
    fs' = fs ∨ ∃ v, fs' = setField fs "critique" v := by
  unfold issuesStep at h
  split at h
  · split at h
    · split at h
      · split at h
        · injection h with h; exact Or.inr ⟨_, h.symm⟩
        · exact Except.noConfusion h
      · injection h with h; exact Or.inl h.symm
    · injection h with h; exact Or.inl h.symm
  · injection h with h; exact Or.inl h.symm

/-- The steps after the score normalization never write `design_score`, so the
sanitized object carries the value `vdsStep` assigned. -/
theorem reviewSanitize_design_score {fs fs' : List (String × Json)}
    (h : reviewSanitize fs = .ok fs') :
    getField fs' "design_score" = getField (vdsStep fs) "design_score" := by
  unfold reviewSanitize at h
  dsimp only at h
  split at h
  · exact Except.noConfusion h
  · rename_i fs4 h4
    split at h
    · exact Except.noConfusion h
    · rename_i fs5 h5
      split at h
      · exact Except.noConfusion h
      · rename_i fs6 h6
        have e7 := @getField_of_shape _ _ "critique" "design_score"
          (issuesStep_shape h) (by decide)
        have e6 := @getField_of_shape _ _ "critique" "design_score"
          (mapArrField_shape h6) (by decide)
        have e5 := @getField_of_shape _ _ "improvements" "design_score"
          (mapArrField_shape h5) (by decide)
        have e4 := @getField_of_shape _ _ "improvements" "design_score"
          (recsStep_shape h4) (by decide)
        have e3 := getField_ensureArrField (ensureArrField (vdsStep fs) "critique")
          "improvements" "design_score" (by decide)
        have e2 := getField_ensureArrField (vdsStep fs) "critique" "design_score" (by decide)
        rw [e7, e6, e5, e4, e3, e2]

-- ### Additional helper lemmas and sample values

theorem jsIndexOf_nonneg (s : String) (c : Char) (h : jsIndexOf s c ≠ -1) :
    0 ≤ jsIndexOf s c := by
  rcases haux : jsIndexOfAux s.toList c 0 with _ | i
  · exact absurd (by rw [jsIndexOf, haux]) h
  · rw [jsIndexOf, haux]
    exact Int.ofNat_nonneg i

theorem getField_jsSpread_singleton (old : List (String × Json)) (k : String) (v : Json) :
    getField (jsSpread old [(k, v)]) k = some v := by
  simp [jsSpread, getField_setField]

def sampleBusiness : Business :=
  { id := "b1", name := "Joes Cafe", address := "1 Main St", rating := Json.num 4,
    review_count := Json.num 12, website_status := "NONE", description := some "cafe",
    phone := none, enriched_data := none }

def sampleBuildState : ProcState :=
  { stage := .BUILD, prompt := "blueprint", websiteUrl := "https://demo.example",
    screenshot := none, generatedCode := "<html></html>", review := none,
    outreach := none, business := some sampleBusiness }

-- ### The span-extraction rule as the specification words it (for claim C4)

/-- The extraction rule exactly as claim C4 words it: choose whichever
container opens first (first `\x7b` against first `[`); return the substring
from its opening delimiter to the matching last closing delimiter; when no
valid span exists — no opening delimiter anywhere, or the chosen container's
last closing delimiter is missing or precedes its opening — treat the payload
as empty (`"\x7b\x7d"`). -/
def extractJsonClaimed (text : String) : String :=
  let startObj := jsIndexOf text '\x7b'
  let endObj := jsLastIndexOf text '\x7d'
  let startArr := jsIndexOf text '['
  let endArr := jsLastIndexOf text ']'
  if startObj ≠ -1 ∧ (startArr = -1 ∨ startObj < startArr) then
    if startObj ≤ endObj then jsSubstring text startObj (endObj + 1) else "\x7b\x7d"
  else if startArr ≠ -1 then
    if startArr ≤ endArr then jsSubstring text startArr (endArr + 1) else "\x7b\x7d"
  else "\x7b\x7d"

-- ### Claim theorems

/-- Claim C4, counterexample: on the input `"\x7d\x7b"` (a closing brace
before an opening one) the source `extractJson` returns the empty string —
`text.substring(1, 1)` — while the claimed algorithm finds no valid span and
yields an empty-container text; the result is neither `"\x7b\x7d"` nor
`"[]"`. -/
theorem C4_counterexample :
    extractJson "\x7d\x7b" = "" ∧ extractJsonClaimed "\x7d\x7b" = "\x7b\x7d" ∧
    ("" : String) ≠ "\x7b\x7d" ∧ ("" : String) ≠ "[]" :=
  ⟨rfl, rfl, by decide, by decide⟩

/-- Claim C4 (amended): `extractJson` picks whichever container opens first
and returns the substring from its opening delimiter to the matching last
closing delimiter, falling back to `"\x7b\x7d"` (never `"[]"`) — exactly as
the claim describes — *provided* the chosen container's last closing
delimiter, when present, does not precede its opening delimiter; in that
remaining degenerate case the code instead returns the argument-swapped
`substring`, which need not be an empty-container text. -/
theorem C4_extractJson_span (text : String)
    (hobj : jsIndexOf text '\x7b' ≠ -1 ∧
        (jsIndexOf text '[' = -1 ∨ jsIndexOf text '\x7b' < jsIndexOf text '[') →
      jsLastIndexOf text '\x7d' = -1 ∨ jsIndexOf text '\x7b' ≤ jsLastIndexOf text '\x7d')
    (harr : ¬ (jsIndexOf text '\x7b' ≠ -1 ∧
        (jsIndexOf text '[' = -1 ∨ jsIndexOf text '\x7b' < jsIndexOf text '[')) →
        jsIndexOf text '[' ≠ -1 →
      jsLastIndexOf text ']' = -1 ∨ jsIndexOf text '[' ≤ jsLastIndexOf text ']') :
    extractJson text = extractJsonClaimed text := by
  unfold extractJson extractJsonClaimed
  dsimp only
  by_cases c1 : jsIndexOf text '\x7b' ≠ -1 ∧
      (jsIndexOf text '[' = -1 ∨ jsIndexOf text '\x7b' < jsIndexOf text '[')
  · rw [if_pos c1, if_pos c1]
    have hs := jsIndexOf_nonneg text '\x7b' c1.1
    rcases hobj c1 with hend | hle
    · rw [if_neg (by omega), if_neg (by omega)]
    · rw [if_pos (by omega), if_pos hle]
  · rw [if_neg c1, if_neg c1]
    by_cases c2 : jsIndexOf text '[' ≠ -1
    · rw [if_pos c2, if_pos c2]
      have hs := jsIndexOf_nonneg text '[' c2
      rcases harr c1 c2 with hend | hle
      · rw [if_neg (by omega), if_neg (by omega)]
      · rw [if_pos (by omega), if_pos hle]
    · rw [if_neg c2, if_neg c2]

/-- Witness for C4: a payload with prose around an object span. -/
theorem C4_extractJson_span_witness :
    extractJson "note \x7b\"a\":1\x7d end" = extractJsonClaimed "note \x7b\"a\":1\x7d end" :=
  C4_extractJson_span "note \x7b\"a\":1\x7d end" (by decide) (by decide)

/-- Claim C5, counterexample: on an unparseable critique response the
fallback review is returned, but its scores are 5 and 5 — mid-scale — not the
zeroed scores the claim states. -/
theorem C5_counterexample :
    reviewNormalize "\x7bbad\x7d" = Json.obj reviewFallbackFields ∧
    getField reviewFallbackFields "design_score" = some (Json.num 5) ∧
    getField reviewFallbackFields "design_score" ≠ some (Json.num 0) ∧
    getField reviewFallbackFields "conversion_score" ≠ some (Json.num 0) := by
  refine ⟨rfl, rfl, ?_, ?_⟩
  · intro h
    rw [show getField reviewFallbackFields "design_score" = some (Json.num 5) from rfl] at h
    injection h with h1
    injection h1 with h2
    exact absurd h2 (by decide)
  · intro h
    rw [show getField reviewFallbackFields "conversion_score" = some (Json.num 5) from rfl] at h
    injection h with h1
    injection h1 with h2
    exact absurd h2 (by decide)

/-- Claim C5 (amended): whenever the critique response text fails to parse,
both variants of `reviewWebsiteContent` return the fixed fallback review —a
single descriptive critique point, `is_approved` false— whose `design_score`
and `conversion_score` are 5 (mid-scale), not 0. -/
theorem C5_parse_failure_fallback (respText : String)
    (h1 : Json.parse (extractJson respText) = none)
    (h2 : Json.parse (cleanJson respText) = none) :
    reviewNormalize respText = Json.obj reviewFallbackFields ∧
    reviewNormalize2 respText = Json.obj reviewFallbackFields ∧
    getField reviewFallbackFields "design_score" = some (Json.num 5) ∧
    getField reviewFallbackFields "conversion_score" = some (Json.num 5) ∧
    getField reviewFallbackFields "is_approved" = some (Json.bool false) ∧
    getField reviewFallbackFields "critique" =
      some (Json.arr [Json.obj [("point",
        Json.str "AI Review Service encountered an parsing error. Manual review recommended."),
        ("box_2d", box2dZero)]]) := by
  refine ⟨?_, ?_, rfl, rfl, rfl, rfl⟩
  · simp [reviewNormalize, h1, reviewFallback]
  · simp [reviewNormalize2, h2, reviewFallback]

/-- Witness for C5's amended theorem at the unparseable payload
`"\x7bbad\x7d"`. -/
theorem C5_parse_failure_fallback_witness :
    reviewNormalize "\x7bbad\x7d" = Json.obj reviewFallbackFields ∧
    reviewNormalize2 "\x7bbad\x7d" = Json.obj reviewFallbackFields :=
  ⟨(C5_parse_failure_fallback "\x7bbad\x7d" rfl rfl).1,
    (C5_parse_failure_fallback "\x7bbad\x7d" rfl rfl).2.1⟩

/-- Claim C7: the project score is the weighted sum granting 20 points to
each present artifact — enriched data, blueprint text, markup-or-URL, review,
outreach — so five present artifacts give exactly 100 and none give 0. -/
theorem C7_project_score (s : ProcState) :
    (calculateProjectScore s =
      20 * ((if (s.business.bind fun b => b.enriched_data).isSome then 1 else 0) +
        (if s.prompt ≠ "" then 1 else 0) +
        (if s.generatedCode ≠ "" ∨ s.websiteUrl ≠ "" then 1 else 0) +
        (if s.review.isSome then 1 else 0) +
        (if s.outreach.isSome then 1 else 0))) ∧
    ((s.business.bind fun b => b.enriched_data).isSome → s.prompt ≠ "" →
      (s.generatedCode ≠ "" ∨ s.websiteUrl ≠ "") → s.review.isSome → s.outreach.isSome →
      calculateProjectScore s = 100) ∧
    (¬ (s.business.bind fun b => b.enriched_data).isSome → s.prompt = "" →
      s.generatedCode = "" → s.websiteUrl = "" →
      ¬ s.review.isSome → ¬ s.outreach.isSome → calculateProjectScore s = 0) := by
  refine ⟨?_, ?_, ?_⟩
  · unfold calculateProjectScore
    dsimp only
    split_ifs <;> norm_num
  · intro h1 h2 h3 h4 h5
    simp [calculateProjectScore, h1, h2, h3, h4, h5]
  · intro h1 h2 h3 h4 h5 h6
    simp [calculateProjectScore, h1, h2, h3, h4, h5, h6]

/-- Witness for C7: a state with all five artifacts scores 100; a state with
none scores 0. -/
theorem C7_project_score_witness :
    calculateProjectScore
      { stage := .SUMMARY, prompt := "p", websiteUrl := "https://d",
        screenshot := none, generatedCode := "<html>",
        review := some (Json.obj []), outreach := some
          { cold_email := { subject := "s", body := "b" }, whatsapp := "w",
            call_script := "c" },
        business := some { sampleBusiness with
          enriched_data := some [("services", Json.arr [Json.str "A"])] } } = 100 ∧
    calculateProjectScore
      { stage := .PROMPT, prompt := "", websiteUrl := "", screenshot := none,
        generatedCode := "", review := none, outreach := none, business := none } = 0 := by
  constructor
  · exact (C7_project_score _).2.1 (by decide) (by decide) (Or.inl (by decide)) rfl rfl
  · exact (C7_project_score _).2.2 (by decide) rfl rfl rfl (by decide) (by decide)

/-- Claim C10: the email service is a mock — for every recipient, subject and
body it resolves `true` and its only effects are the two console lines, so
the send-email outreach action always reports success (and is a no-op without
an outreach package); no email is ever dispatched. -/
theorem C10_mock_email (recipient subject body : String) (business : Option Business)
    (outreach : OutreachPackageRec) :
    sendEmail recipient subject body =
      (["[Email Service] Sending to: " ++ recipient, "Subject: " ++ subject], true) ∧
    handleSendEmail business (some outreach) = some (Notice.toast "Email Sent Successfully") ∧
    handleSendEmail business none = none := by
  refine ⟨rfl, ?_, rfl⟩
  simp [handleSendEmail, sendEmail]

/-- Claim C8, counterexample: with the remote tier disabled (null client) the
four upsert writes do not degrade to no-ops — each dereferences the null
client and rejects with a `TypeError`, contradicting "no write raises an
error in disabled mode". -/
theorem C8_counterexample :
    savePromptToDb none "b1" "blueprint" = .error .typeError ∧
    saveWebsiteToDb none "b1" "https://d" "<html>" "" = .error .typeError ∧
    saveReviewToDb none "b1" reviewFallbackFields = .error .typeError ∧
    saveOutreachToDb none "b1"
      { cold_email := { subject := "s", body := "b" }, whatsapp := "w",
        call_script := "c" } = .error .typeError :=
  ⟨rfl, rfl, rfl, rfl⟩

/-- Claim C8 (amended): in disabled mode, session creation degrades to a
synthesized `local-${Date.now()}` identifier, the business save injects
`local-biz-${Date.now()}-${i}` identifiers, and the business update is a
warn-only no-op — but the four prompt/website/review/outreach upserts have no
disabled-mode guard and each raises a `TypeError` on the null client (their
callers' `try`/`catch` blocks absorb the rejection). -/
theorem C8_disabled_mode (nowMs : Nat) (sessionData updates : List (String × Json))
    (sessionId businessId url code shot promptContent : String)
    (businesses : List Business) (review : List (String × Json))
    (outreach : OutreachPackageRec)
    (hid : getField sessionData "id" = none)
    (hnd : (sessionData.map Prod.fst).Nodup) :
    (∃ j, createSessionInDb none nowMs sessionData = .ok (Json.obj j) ∧
      getField j "id" = some (Json.str ("local-" ++ toString nowMs))) ∧
    (∃ rows, saveBusinessesToDb none nowMs sessionId businesses = .ok (Json.arr rows) ∧
      rows.length = businesses.length ∧
      ∀ i, (hi : i < rows.length) →
        ∃ fs, rows.get ⟨i, hi⟩ = Json.obj fs ∧
          getField fs "id" =
            some (Json.str ("local-biz-" ++ toString nowMs ++ "-" ++ toString i))) ∧
    updateBusinessInDb none businessId updates = .ok () ∧
    savePromptToDb none businessId promptContent = .error .typeError ∧
    saveWebsiteToDb none businessId url code shot = .error .typeError ∧
    saveReviewToDb none businessId review = .error .typeError ∧
    saveOutreachToDb none businessId outreach = .error .typeError := by
  refine ⟨⟨_, rfl, ?_⟩, ⟨_, rfl, ?_, ?_⟩, rfl, rfl, rfl, rfl, rfl⟩
  · rw [getField_jsSpread _ sessionData "id" hnd, hid]
    simp [getField]
  · simp
  · intro i hi
    have hlen : i < (businesses.map (businessRow sessionId)).length := by
      simpa using hi
    refine ⟨_, List.get_mapIdx _ _ i hlen hi, ?_⟩
    exact getField_jsSpread_singleton _ "id" _

/-- Witness for C8's amended theorem at concrete disabled-mode inputs. -/
theorem C8_disabled_mode_witness :
    savePromptToDb none "b1" "blueprint" = .error .typeError ∧
    updateBusinessInDb none "b1" [("notes", Json.str "Extra: ")] = .ok () ∧
    (∃ j, createSessionInDb none 1700000000000 [("category", Json.str "cafe")] =
      .ok (Json.obj j) ∧
      getField j "id" = some (Json.str ("local-" ++ toString 1700000000000))) := by
  have h := C8_disabled_mode 1700000000000 [("category", Json.str "cafe")]
    [("notes", Json.str "Extra: ")] "s1" "b1" "https://d" "<html>" "shot" "blueprint"
    [sampleBusiness] reviewFallbackFields
    { cold_email := { subject := "s", body := "b" }, whatsapp := "w", call_script := "c" }
    rfl (by decide)
  exact ⟨h.2.2.2.1, h.2.2.1, h.1⟩

/-- Claim C2, counterexample: from stage `BUILD` with a URL and generated
code, a *failed* critique call leaves the pipeline in stage `REVIEW` — the
handler sets the stage before awaiting the Gateway and never rolls it back,
so the stage after the failure differs from the stage before the action. -/
theorem C2_counterexample :
    (handleReview
      { stage := .BUILD, prompt := "blueprint", websiteUrl := "https://demo.example",
        screenshot := none, generatedCode := "<html></html>", review := none,
        outreach := none, business := none }
      (.error .typeError)).stage = .REVIEW ∧
    ProcessingStage.REVIEW ≠ ProcessingStage.BUILD := by
  constructor
  · rfl
  · decide

/-- Claim C2 (amended): a failed Gateway call stores no artifact and only
surfaces the blocking alert, but the stage after the failure is the *target*
stage the handler optimistically set before issuing the call — `REVIEW` for
the critique call (whenever the synchronous guards pass) and `OUTREACH` for
the outreach draft (whenever a business is selected) — not necessarily the
stage from before the action was triggered. -/
theorem C2_failed_gateway_stage (s : ProcState) (e e' : JsError)
    (hg1 : ¬ ((strNullFalsy s.screenshot ∧ s.generatedCode = "") ∨ s.websiteUrl = ""))
    (hg2 : ¬ (screenshotIsHttp s ∧ s.generatedCode = ""))
    (hb : s.business.isSome) :
    (handleReview s (.error e)).stage = .REVIEW ∧
    (handleReview s (.error e)).review = s.review ∧
    (handleGenerateOutreach s (.error e')).stage = .OUTREACH ∧
    (handleGenerateOutreach s (.error e')).outreach = s.outreach := by
  have hr : handleReview s (.error e) = { s with stage := .REVIEW } := by
    unfold handleReview
    rw [if_neg hg1, if_neg hg2]
  have ho : handleGenerateOutreach s (.error e') = { s with stage := .OUTREACH } := by
    unfold handleGenerateOutreach
    rcases hbs : s.business with _ | b
    · rw [hbs] at hb
      exact absurd hb (by decide)
    · rfl
  rw [hr, ho]
  exact ⟨rfl, rfl, rfl, rfl⟩

/-- Witness for C2's amended theorem: the `BUILD`-stage state with generated
code, a URL and a selected business. -/
theorem C2_failed_gateway_stage_witness :
    (handleReview sampleBuildState (.error .typeError)).stage = .REVIEW ∧
    (handleReview sampleBuildState (.error .typeError)).review = sampleBuildState.review ∧
    (handleGenerateOutreach sampleBuildState (.error .typeError)).stage = .OUTREACH ∧
    (handleGenerateOutreach sampleBuildState (.error .typeError)).outreach =
      sampleBuildState.outreach :=
  C2_failed_gateway_stage sampleBuildState .typeError .typeError
    (by decide) (by decide) (by decide)

/-- Claim C1, counterexample: with `services: ["A"]` previously populated and
a later enrichment result carrying `services: []`, the spread merge in
`handleEnrich` replaces the populated field with the empty list — the merge
is not additive and the claimed rule (new value only if non-empty) fails. -/
theorem C1_counterexample :
    getField (handleEnrichMerge [("services", Json.arr [Json.str "A"])]
      [("services", Json.arr [])]) "services" = some (Json.arr []) ∧
    ¬ MergeAdditive [("services", Json.arr [Json.str "A"])] [("services", Json.arr [])]
      (handleEnrichMerge [("services", Json.arr [Json.str "A"])]
        [("services", Json.arr [])]) := by
  refine ⟨rfl, ?_⟩
  intro h
  have h2 := h "services"
  rw [show getField (handleEnrichMerge [("services", Json.arr [Json.str "A"])]
      [("services", Json.arr [])]) "services" = some (Json.arr []) from rfl] at h2
  rw [show fieldNonEmpty (getField [("services", Json.arr [])] "services") = false
    from rfl] at h2
  simp [getField] at h2

/-- Claim C1 (amended): the enriched-data merge in `handleEnrich` is a plain
JavaScript object spread — for any field, the merged field equals the *new*
value whenever the field's key is present in the new enrichment result, even
when that value is empty, and the old value only when the key is absent; a
later present-but-empty field therefore does erase previously populated
data. -/
theorem C1_spread_merge (old new : List (String × Json)) (k : String)
    (hnd : (new.map Prod.fst).Nodup) :
    getField (handleEnrichMerge old new) k =
      match getField new k with
      | some v => some v
      | none => getField old k :=
  getField_jsSpread old new k hnd

/-- Witness for C1's amended theorem: a key absent from the new result keeps
its old value, while a present-but-empty key is overwritten. -/
theorem C1_spread_merge_witness :
    getField (handleEnrichMerge
      [("services", Json.arr [Json.str "A"]), ("emails", Json.arr [Json.str "a\x40b.c"])]
      [("services", Json.arr []), ("phones", Json.arr [Json.str "1"])]) "emails" =
      some (Json.arr [Json.str "a\x40b.c"]) := by
  have h := C1_spread_merge
    [("services", Json.arr [Json.str "A"]), ("emails", Json.arr [Json.str "a\x40b.c"])]
    [("services", Json.arr []), ("phones", Json.arr [Json.str "1"])] "emails" (by decide)
  exact h.trans rfl

/-- Claim C3, counterexample: `findBusinessesWithGemini` on non-JSON prose
returns the empty *object* — `extractJson` degrades `"hello"` to
`"\x7b\x7d"`, which parses successfully — not a list. -/
theorem C3_counterexample :
    findBusinessesWithGemini "hello" = Json.obj [] ∧
    Json.isArr (findBusinessesWithGemini "hello") = false :=
  ⟨rfl, rfl⟩

/-- Claim C3 (amended): neither list-shaped normalization path raises to its
caller. `fetchRegions` always returns an array — every internal throw (a
parse failure or a `null` element under the sanitizing map) is caught and
degraded to `[]`. `findBusinessesWithGemini`, however, degrades to `[]` only
when parsing throws; otherwise it returns the parsed value unchanged,
whatever its shape (an empty object for prose input). -/
theorem C3_normalizer_totality (respText : String) :
    Json.isArr (fetchRegions respText) = true ∧
    (Json.parse (extractJson respText) = none →
      findBusinessesWithGemini respText = Json.arr []) ∧
    (∀ v, Json.parse (extractJson respText) = some v →
      findBusinessesWithGemini respText = v) := by
  refine ⟨?_, ?_, ?_⟩
  · unfold fetchRegions fetchRegionsBody
    rcases hp : Json.parse (extractJson respText) with _ | v
    · rfl
    · rcases v with _ | _ | b | n | s | items | fs
      · rfl
      · rfl
      · rfl
      · rfl
      · rfl
      · rcases hm : items.mapM regionItemToString with e | xs <;>
          simp only [List.mapM] at hm <;> simp [hm, Json.isArr]
      · rfl
  · intro h
    simp [findBusinessesWithGemini, h]
  · intro v hv
    simp [findBusinessesWithGemini, hv]

/-- Witness for C3's amended theorem at an unparseable extracted span. -/
theorem C3_normalizer_totality_witness :
    Json.isArr (fetchRegions "\x7bbad\x7d") = true ∧
    findBusinessesWithGemini "\x7bbad\x7d" = Json.arr [] ∧
    findBusinessesWithGemini "x [\"a\"] y" = Json.arr [Json.str "a"] :=
  ⟨(C3_normalizer_totality "\x7bbad\x7d").1,
    (C3_normalizer_totality "\x7bbad\x7d").2.1 rfl,
    (C3_normalizer_totality "x [\"a\"] y").2.2 (Json.arr [Json.str "a"]) rfl⟩

-- ### Helper lemmas for the outreach field coercion

theorem getField_coerceMsgField_other (fs : List (String × Json)) (kw k : String)
    (ks : List String) (h : kw ≠ k) :
    getField (coerceMsgField fs kw ks) k = getField fs k := by
  rcases hg : getField fs kw with _ | v
  · simp [coerceMsgField, hg]
  · rcases v with _ | _ | b | n | s | xs | w <;>
      simp [coerceMsgField, hg, getField_setField, h]

theorem getField_coerceMsgField_obj (fs w : List (String × Json)) (kw : String)
    (ks : List String) (hw : getField fs kw = some (Json.obj w)) :
    getField (coerceMsgField fs kw ks) kw =
      some (firstTruthyField w ks (.str (Json.stringify (.obj w)))) := by
  simp [coerceMsgField, hw, getField_setField]

theorem getField_coerceMsgField_str (fs : List (String × Json)) (kw s0 : String)
    (ks : List String) (hs : getField fs kw = some (Json.str s0)) :
    getField (coerceMsgField fs kw ks) kw = some (Json.str s0) := by
  simp [coerceMsgField, hs]

theorem firstTruthyField_head (w : List (String × Json)) (k : String) (ks : List String)
    (fb : Json) (m : String) (h : getField w k = some (Json.str m)) (hm : m ≠ "") :
    firstTruthyField w (k :: ks) fb = Json.str m := by
  simp [firstTruthyField, h, Json.truthy, hm]

theorem outreachV1_getProp_whatsapp (respText : String) (fs : List (String × Json))
    (hp : Json.parse (extractJson respText) = some (Json.obj fs)) :
    Json.getProp (generateOutreachMaterials respText) "whatsapp" =
      getField (coerceMsgField fs "whatsapp" ["message", "text"]) "whatsapp" := by
  simp only [generateOutreachMaterials, hp, Json.getProp]
  rw [getField_ensureArrField _ "objections" "whatsapp" (by decide),
    getField_ensureArrField _ "follow_ups" "whatsapp" (by decide),
    getField_coerceMsgField_other _ "call_script" "whatsapp" ["message", "text"] (by decide)]

theorem outreachV1_getProp_script (respText : String) (fs : List (String × Json))
    (hp : Json.parse (extractJson respText) = some (Json.obj fs)) :
    Json.getProp (generateOutreachMaterials respText) "call_script" =
      getField (coerceMsgField (coerceMsgField fs "whatsapp" ["message", "text"])
        "call_script" ["message", "text"]) "call_script" := by
  simp only [generateOutreachMaterials, hp, Json.getProp]
  rw [getField_ensureArrField _ "objections" "call_script" (by decide),
    getField_ensureArrField _ "follow_ups" "call_script" (by decide)]

theorem outreachV2_getProp_whatsapp (respText : String) (fs : List (String × Json))
    (hp : Json.parse (cleanJson respText) = some (Json.obj fs)) :
    Json.getProp (generateOutreachMaterials2 respText) "whatsapp" =
      getField (coerceMsgField fs "whatsapp" ["message", "text", "content"]) "whatsapp" := by
  simp only [generateOutreachMaterials2, hp, Json.getProp]
  rw [getField_coerceMsgField_other _ "call_script" "whatsapp"
    ["message", "text", "content"] (by decide)]

theorem outreachV2_getProp_script (respText : String) (fs : List (String × Json))
    (hp : Json.parse (cleanJson respText) = some (Json.obj fs)) :
    Json.getProp (generateOutreachMaterials2 respText) "call_script" =
      getField (coerceMsgField (coerceMsgField fs "whatsapp" ["message", "text", "content"])
        "call_script" ["message", "text", "content"]) "call_script" := by
  simp only [generateOutreachMaterials2, hp, Json.getProp]

/-- Claim C6, counterexample: when the object's `message` is the *empty*
string, the `||` chain skips it (empty strings are falsy) and falls through
to `JSON.stringify`, so `\x7b"whatsapp": \x7b"message": ""\x7d\x7d`
normalizes to the serialized object text, not to the contained string. -/
theorem C6_counterexample :
    Json.getProp (generateOutreachMaterials
      "\x7b\"whatsapp\":\x7b\"message\":\"\"\x7d\x7d") "whatsapp" =
      some (Json.str "\x7b\"message\":\"\"\x7d") ∧
    ("\x7b\"message\":\"\"\x7d" : String) ≠ "" :=
  ⟨rfl, by decide⟩

/-- Claim C6 (amended): for every parsed outreach response whose `whatsapp`
field is an object containing a *non-empty* `message` string, the normalized
`whatsapp` equals that string; a `whatsapp` that is already a string passes
through unchanged; and the same holds for `call_script` — in both variants of
`generateOutreachMaterials` (the second variant also consults `content`). An
empty `message` string instead falls through to `JSON.stringify`. -/
theorem C6_field_coercion (respText : String) (fs : List (String × Json)) :
    (Json.parse (extractJson respText) = some (Json.obj fs) →
      (∀ w m, getField fs "whatsapp" = some (Json.obj w) →
        getField w "message" = some (Json.str m) → m ≠ "" →
        Json.getProp (generateOutreachMaterials respText) "whatsapp" =
          some (Json.str m)) ∧
      (∀ s0, getField fs "whatsapp" = some (Json.str s0) →
        Json.getProp (generateOutreachMaterials respText) "whatsapp" =
          some (Json.str s0)) ∧
      (∀ w m, getField fs "call_script" = some (Json.obj w) →
        getField w "message" = some (Json.str m) → m ≠ "" →
        Json.getProp (generateOutreachMaterials respText) "call_script" =
          some (Json.str m)) ∧
      (∀ s0, getField fs "call_script" = some (Json.str s0) →
        Json.getProp (generateOutreachMaterials respText) "call_script" =
          some (Json.str s0))) ∧
    (Json.parse (cleanJson respText) = some (Json.obj fs) →
      (∀ w m, getField fs "whatsapp" = some (Json.obj w) →
        getField w "message" = some (Json.str m) → m ≠ "" →
        Json.getProp (generateOutreachMaterials2 respText) "whatsapp" =
          some (Json.str m)) ∧
      (∀ s0, getField fs "whatsapp" = some (Json.str s0) →
        Json.getProp (generateOutreachMaterials2 respText) "whatsapp" =
          some (Json.str s0)) ∧
      (∀ w m, getField fs "call_script" = some (Json.obj w) →
        getField w "message" = some (Json.str m) → m ≠ "" →
        Json.getProp (generateOutreachMaterials2 respText) "call_script" =
          some (Json.str m)) ∧
      (∀ s0, getField fs "call_script" = some (Json.str s0) →
        Json.getProp (generateOutreachMaterials2 respText) "call_script" =
          some (Json.str s0))) := by
  constructor
  · intro hp
    refine ⟨?_, ?_, ?_, ?_⟩
    · intro w m hw hm hne
      rw [outreachV1_getProp_whatsapp respText fs hp,
        getField_coerceMsgField_obj fs w "whatsapp" ["message", "text"] hw,
        firstTruthyField_head w "message" ["text"] _ m hm hne]
    · intro s0 hs
      rw [outreachV1_getProp_whatsapp respText fs hp,
        getField_coerceMsgField_str fs "whatsapp" s0 ["message", "text"] hs]
    · intro w m hw hm hne
      have hw1 : getField (coerceMsgField fs "whatsapp" ["message", "text"])
          "call_script" = some (Json.obj w) := by
        rw [getField_coerceMsgField_other fs "whatsapp" "call_script"
          ["message", "text"] (by decide)]
        exact hw
      rw [outreachV1_getProp_script respText fs hp,
        getField_coerceMsgField_obj _ w "call_script" ["message", "text"] hw1,
        firstTruthyField_head w "message" ["text"] _ m hm hne]
    · intro s0 hs
      have hs1 : getField (coerceMsgField fs "whatsapp" ["message", "text"])
          "call_script" = some (Json.str s0) := by
        rw [getField_coerceMsgField_other fs "whatsapp" "call_script"
          ["message", "text"] (by decide)]
        exact hs
      rw [outreachV1_getProp_script respText fs hp,
        getField_coerceMsgField_str _ "call_script" s0 ["message", "text"] hs1]
  · intro hp
    refine ⟨?_, ?_, ?_, ?_⟩
    · intro w m hw hm hne
      rw [outreachV2_getProp_whatsapp respText fs hp,
        getField_coerceMsgField_obj fs w "whatsapp" ["message", "text", "content"] hw,
        firstTruthyField_head w "message" ["text", "content"] _ m hm hne]
    · intro s0 hs
      rw [outreachV2_getProp_whatsapp respText fs hp,
        getField_coerceMsgField_str fs "whatsapp" s0 ["message", "text", "content"] hs]
    · intro w m hw hm hne
      have hw1 : getField (coerceMsgField fs "whatsapp" ["message", "text", "content"])
          "call_script" = some (Json.obj w) := by
        rw [getField_coerceMsgField_other fs "whatsapp" "call_script"
          ["message", "text", "content"] (by decide)]
        exact hw
      rw [outreachV2_getProp_script respText fs hp,
        getField_coerceMsgField_obj _ w "call_script" ["message", "text", "content"] hw1,
        firstTruthyField_head w "message" ["text", "content"] _ m hm hne]
    · intro s0 hs
      have hs1 : getField (coerceMsgField fs "whatsapp" ["message", "text", "content"])
          "call_script" = some (Json.str s0) := by
        rw [getField_coerceMsgField_other fs "whatsapp" "call_script"
          ["message", "text", "content"] (by decide)]
        exact hs
      rw [outreachV2_getProp_script respText fs hp,
        getField_coerceMsgField_str _ "call_script" s0 ["message", "text", "content"] hs1]

/-- Witness for C6's amended theorem: `\x7b"whatsapp": \x7b"message":
"hi"\x7d, "call_script": "script"\x7d` normalizes to `whatsapp = "hi"` with
`call_script` unchanged. -/
theorem C6_field_coercion_witness :
    Json.getProp (generateOutreachMaterials
      "\x7b\"whatsapp\":\x7b\"message\":\"hi\"\x7d,\"call_script\":\"script\"\x7d")
      "whatsapp" = some (Json.str "hi") ∧
    Json.getProp (generateOutreachMaterials
      "\x7b\"whatsapp\":\x7b\"message\":\"hi\"\x7d,\"call_script\":\"script\"\x7d")
      "call_script" = some (Json.str "script") := by
  have h := C6_field_coercion
    "\x7b\"whatsapp\":\x7b\"message\":\"hi\"\x7d,\"call_script\":\"script\"\x7d"
    [("whatsapp", Json.obj [("message", Json.str "hi")]), ("call_script", Json.str "script")]
  exact ⟨(h.1 rfl).1 [("message", Json.str "hi")] "hi" rfl rfl (by decide),
    (h.1 rfl).2.2.2 "script" rfl⟩

/-- Claim C9: whenever the parsed critique response is an object with a
truthy (non-zero) numeric `visual_design_score` on the 0–100 scale and no
truthy `design_score`, the score-normalization step sets `design_score` to
`Math.round(visual_design_score / 10)`; and the review the first
`reviewWebsiteContent` variant returns carries a `design_score` on the 0–10
scale — the rounded value when sanitization completes, the fallback's `5`
when a later sanitization step throws. -/
theorem C9_vds_normalization (respText : String) (fs : List (String × Json)) (n : Int)
    (hp : Json.parse (extractJson respText) = some (Json.obj fs))
    (hvds : getField fs "visual_design_score" = some (Json.num n))
    (hn : n ≠ 0)
    (hds : ¬ truthyOpt (getField fs "design_score"))
    (hlo : 0 ≤ n) (hhi : n ≤ 100) :
    getField (vdsStep fs) "design_score" = some (Json.num (jsRoundDiv10 n)) ∧
    (∃ m : Int, Json.getProp (reviewNormalize respText) "design_score" =
      some (Json.num m) ∧ 0 ≤ m ∧ m ≤ 10) := by
  have hcond : truthyOpt (getField fs "visual_design_score") ∧
      ¬ truthyOpt (getField fs "design_score") := by
    refine ⟨?_, hds⟩
    rw [hvds]
    simp [truthyOpt, Json.truthy, hn]
  have h1 : vdsStep fs = setField fs "design_score" (Json.num (jsRoundDiv10 n)) := by
    unfold vdsStep
    rw [if_pos hcond, hvds]
    rfl
  have hset : getField (vdsStep fs) "design_score" =
      some (Json.num (jsRoundDiv10 n)) := by
    rw [h1, getField_setField]
    simp
  have hround_lo : 0 ≤ jsRoundDiv10 n := by
    unfold jsRoundDiv10
    rw [Int.fdiv_eq_ediv _ (by norm_num)]
    omega
  have hround_hi : jsRoundDiv10 n ≤ 10 := by
    unfold jsRoundDiv10
    rw [Int.fdiv_eq_ediv _ (by norm_num)]
    omega
  refine ⟨hset, ?_⟩
  rcases hsan : reviewSanitize fs with e | fs'
  · refine ⟨5, ?_, by norm_num, by norm_num⟩
    simp [reviewNormalize, hp, hsan, reviewFallback, Json.getProp]
    rfl
  · refine ⟨jsRoundDiv10 n, ?_, hround_lo, hround_hi⟩
    have hthis : Json.getProp (reviewNormalize respText) "design_score" =
        getField fs' "design_score" := by
      simp [reviewNormalize, hp, hsan, Json.getProp]
    rw [hthis, reviewSanitize_design_score hsan, hset]

/-- Witness for C9 at the payload `\x7b"visual_design_score": 80\x7d`:
`design_score` becomes `8`. -/
theorem C9_vds_normalization_witness :
    getField (vdsStep [("visual_design_score", Json.num 80)]) "design_score" =
      some (Json.num (jsRoundDiv10 80)) ∧
    (∃ m : Int, Json.getProp (reviewNormalize "\x7b\"visual_design_score\":80\x7d")
      "design_score" = some (Json.num m) ∧ 0 ≤ m ∧ m ≤ 10) :=
  C9_vds_normalization "\x7b\"visual_design_score\":80\x7d"
    [("visual_design_score", Json.num 80)] 80 rfl rfl (by decide)
    (by decide) (by decide) (by decide)
